import Mathlib

/-!
Verification of `src/clx/parsers/splunk_notable_parser.py` (SplunkNotableParser).

The parser operates on cudf dataframes.  We embed a dataframe shallowly:

* a cell is string data, the null marker, or an integer (integers arise only
  from `Series.str.len()`);
* a row is a total map from column names to cells; which columns actually
  exist is tracked separately in `cols` (the verified code paths only ever
  read names that are in `cols`, so the extra totality is harmless);
* every columnar operation of the source is a map/filter/append over `rows`.

`EventParser.parse_raw_event` and `_load_regex_yaml` live in
`clx/parsers/event_parser.py`, which is not part of the sources; they are
modelled from the spec (see their doc comments).
-/

namespace Clx

/-- A cell of a cudf dataframe: the null marker, string data, or an integer
(the latter produced only by `Series.str.len`). -/
inductive Cell where
  | null : Cell
  | str : String → Cell
  | num : Nat → Cell
deriving DecidableEq

/-- `true` iff the cell holds string data. -/
def Cell.isStr : Cell → Bool
  | Cell.str _ => true
  | _ => false

/-- `true` iff the cell holds a non-empty string. -/
def Cell.isNonEmptyStr : Cell → Bool
  | Cell.str s => !(s == "")
  | _ => false

/-- A tabular dataset: the list of column names and the rows.  A row is a
total function from column names to cells; names outside `cols` are never
read on the verified paths. -/
structure DataFrame where
  cols : List String
  rows : List (String → Cell)

/-- Update one key of a row. -/
def updateRow (r : String → Cell) (c : String) (v : Cell) : String → Cell :=
  fun c' => if c' = c then v else r c'

/-- The values of column `c`, in row order (`df[c]`). -/
def DataFrame.getCol (df : DataFrame) (c : String) : List Cell :=
  df.rows.map (fun r => r c)

/-- `df[c] = f(df)` where the right-hand side is computed row-wise from the
dataframe before the assignment: sets column `c` on every row, adding `c` to
the column list when absent. -/
def DataFrame.setColBy (df : DataFrame) (c : String) (f : (String → Cell) → Cell) :
    DataFrame :=
  { cols := if c ∈ df.cols then df.cols else df.cols ++ [c],
    rows := df.rows.map (fun r => updateRow r c (f r)) }

/-- Boolean-mask row selection `df[mask]`. -/
def DataFrame.filterRows (df : DataFrame) (p : (String → Cell) → Bool) : DataFrame :=
  { cols := df.cols, rows := df.rows.filter p }

/-- `cudf.concat([d1, d2])`: rows of `d1` followed by rows of `d2` (our uses
always have identical column lists). -/
def DataFrame.concat (d1 d2 : DataFrame) : DataFrame :=
  { cols := d1.cols, rows := d1.rows ++ d2.rows }

/-- `df.drop(labels)`: in the cudf version used by clx this removes the named
columns (cf. the source comment "Remove ip2 and ip_len columns"). -/
def DataFrame.drop (df : DataFrame) (ls : List String) : DataFrame :=
  { cols := df.cols.filter (fun c => !decide (c ∈ ls)), rows := df.rows }

/-- `fillna("")` on one cell: the null marker becomes the empty string, any
other cell is unchanged. -/
def fillnaCell : Cell → Cell
  | Cell.null => Cell.str ""
  | v => v

/-- `fillna("")` on one row. -/
def fillnaRow (r : String → Cell) : String → Cell :=
  fun c => fillnaCell (r c)

/-- `df.fillna("")`: blanket replacement of nulls by the empty string in
every column. -/
def DataFrame.fillna (df : DataFrame) : DataFrame :=
  { cols := df.cols, rows := df.rows.map fillnaRow }

/-- `Series.str.len()` on one cell: character count of string data, null on
the null marker (and on non-string data, which the source never reaches). -/
def cellStrLen : Cell → Cell
  | Cell.str s => Cell.num s.length
  | _ => Cell.null

/-- cudf elementwise `==`: comparisons against (or of) null yield null, and a
null mask entry selects no row, so both count as `false` here. -/
def cellEqMask (a b : Cell) : Bool :=
  match a, b with
  | Cell.null, _ => false
  | _, Cell.null => false
  | a, b => a == b

/-- cudf elementwise `!=`, with the same null convention as `cellEqMask`. -/
def cellNeMask (a b : Cell) : Bool :=
  match a, b with
  | Cell.null, _ => false
  | _, Cell.null => false
  | a, b => !(a == b)

/-- `Series.str.replace("\\\\", "")`.  The Python literal `"\\\\"` is the
two-character regex `\\`, which (cudf `str.replace` defaults to regex
patterns) matches one literal backslash; replacing every match by the empty
string removes every backslash character from the text. -/
def cleanText (s : String) : String :=
  String.mk (s.data.filter (fun ch => !(ch == '\\')))

/-- The backslash cleaning on one cell (`str.replace` keeps nulls null). -/
def cellClean : Cell → Cell
  | Cell.str s => Cell.str (cleanText s)
  | _ => Cell.null

/-- Modelled from the spec: a named pattern is a regular expression with
named capture groups, here abstracted as the list of group names plus a
matcher returning, on a matching text, the capture of each group (`none`
for a group that did not take part in the match), and `none` on a
non-matching text.  The concrete regex lives in
`resources/splunk_notable_regex.yaml`, which is not under the sources. -/
structure Pattern where
  groups : List String
  run : String → Option (String → Option String)

/-- Row-wise extraction with a named pattern: each group name becomes a
column holding the matched substring, null when the row or the group does
not match; other keys of the row are kept. -/
def extractRow (p : Pattern) (rawCol : String) (r : String → Cell) :
    String → Cell :=
  fun c =>
    if c ∈ p.groups then
      match r rawCol with
      | Cell.str s =>
        match p.run s with
        | none => Cell.null
        | some caps =>
          match caps c with
          | none => Cell.null
          | some v => Cell.str v
      | _ => Cell.null
    else r c

/-- Modelled from the spec: `EventParser.parse_raw_event`
(`clx/parsers/event_parser.py`, not under the sources) applies the single
configured named-capture pattern row-wise to the text column, producing one
column per named group ("additional (or replaced) columns matching the
pattern's group names"), with the same row count as the input. -/
def parse_raw_event (p : Pattern) (df : DataFrame) (rawCol : String) : DataFrame :=
  { cols := df.cols ++ p.groups.filter (fun g => !decide (g ∈ df.cols)),
    rows := df.rows.map (extractRow p rawCol) }

/-- `df[df[ip_len]]` setup: `parsed_dataframe[ip_len] = parsed_dataframe[ip].str.len()`. -/
def lenDf (df : DataFrame) (ip : String) : DataFrame :=
  df.setColBy (ip ++ "_len") (fun r => cellStrLen (r ip))

/-- `parsed_dataframe[parsed_dataframe[ip_len] == 0]`: the zero-length-primary group. -/
def zeroDf (df : DataFrame) (ip : String) : DataFrame :=
  (lenDf df ip).filterRows (fun r => cellEqMask (r (ip ++ "_len")) (Cell.num 0))

/-- `parsed_dataframe[parsed_dataframe[ip_len] != 0]`: the complement group. -/
def nonzeroDf (df : DataFrame) (ip : String) : DataFrame :=
  (lenDf df ip).filterRows (fun r => cellNeMask (r (ip ++ "_len")) (Cell.num 0))

/-- One iteration of the loop in `_process_ip_fields` for a primary field
`ip` (alternate `ip ++ "2"`, helper `ip ++ "_len"`): partition on zero
length, overwrite the primary with the alternate on the zero group, skip the
concat when a group is empty, and drop the helper and alternate columns. -/
def process_ip_pass (df : DataFrame) (ip : String) : DataFrame :=
  let ip2 := ip ++ "2"
  let tmp := zeroDf df ip
  let kept := nonzeroDf df ip
  let res :=
    if tmp.rows.isEmpty then kept
    else
      let tmp2 := tmp.setColBy ip (fun r => r ip2)
      if kept.rows.isEmpty then tmp2 else kept.concat tmp2
  res.drop [ip ++ "_len", ip2]

/-- `_process_ip_fields`: the pass runs once per field pair, `src_ip` first,
then `dest_ip`. -/
def process_ip_fields (df : DataFrame) : DataFrame :=
  process_ip_pass (process_ip_pass df "src_ip") "dest_ip"

/-- Line 25 of the source, `dataframe[raw_column] = dataframe[raw_column]
.str.replace("\\\\", "")`: this assigns through `DataFrame.__setitem__` and
therefore mutates the caller's dataframe in place; `clean_raw df rawCol` is
the caller-visible state of the input dataframe after `parse` returns. -/
def clean_raw (df : DataFrame) (rawCol : String) : DataFrame :=
  df.setColBy rawCol (fun r => cellClean (r rawCol))

/-- The parsed dataframe right before the ip post-processing: cleaned,
extracted, null-filled. -/
def preDf (p : Pattern) (df : DataFrame) (rawCol : String) : DataFrame :=
  DataFrame.fillna (parse_raw_event p (clean_raw df rawCol) rawCol)

/-- `SplunkNotableParser.parse`: clean the raw column (mutating the input),
extract with the named pattern, `fillna("")`, then the ip post-processing. -/
def parse (p : Pattern) (df : DataFrame) (rawCol : String) : DataFrame :=
  process_ip_fields (preDf p df rawCol)

/-- Space-separated tokens of a character list (used by the concrete test
pattern below). -/
def splitTokens (cs : List Char) : List (List Char) :=
  let p := cs.foldr
    (fun c (q : List Char × List (List Char)) =>
      if c = ' ' then ([], q.1 :: q.2) else (c :: q.1, q.2))
    ([], [])
  p.1 :: p.2

/-- Capture of group `g` from a `key=value` token. -/
def capToken (g : String) (t : List Char) : Option String :=
  let pre := g.data ++ ['=']
  if pre.isPrefixOf t then some (String.mk (t.drop pre.length)) else none

/-- Modelled from the spec: a concrete stand-in for the notable pattern of
`resources/splunk_notable_regex.yaml` (not under the sources), capturing the
four designated ip groups from space-separated `key=value` tokens; a text
with no `=` does not match at all. -/
def kvPattern : Pattern :=
  { groups := ["src_ip", "src_ip2", "dest_ip", "dest_ip2"],
    run := fun s =>
      if s.data.contains '=' then
        some (fun g => ((splitTokens s.data).filterMap (capToken g)).head?)
      else none }

/-- The errors of the spec's taxonomy. -/
inductive ParserError where
  | configurationError : ParserError
  | schemaError : ParserError
deriving DecidableEq

/-- Modelled from the spec: `EventParser._load_regex_yaml`
(`clx/parsers/event_parser.py`, not under the sources) at construction time.
`none` stands for a pattern resource that cannot be located, `some none` for
one that does not parse as a valid regex; either is fatal. -/
def loadRegex (resource : Option (Option Pattern)) : Except ParserError Pattern :=
  match resource with
  | none => Except.error ParserError.configurationError
  | some none => Except.error ParserError.configurationError
  | some (some p) => Except.ok p

/-- `parse` including its failure behaviour: reading `dataframe[raw_column]`
on line 25 raises (the spec's SchemaError) when the text column is absent;
otherwise the parse runs to completion.  The error propagates immediately:
no result is produced. -/
def parseE (p : Pattern) (df : DataFrame) (rawCol : String) :
    Except ParserError DataFrame :=
  if rawCol ∈ df.cols then Except.ok (parse p df rawCol)
  else Except.error ParserError.schemaError

/-- Row image of `parsed_dataframe[ip_len] = parsed_dataframe[ip].str.len()`. -/
def setLenRow (ip : String) (r : String → Cell) : String → Cell :=
  updateRow r (ip ++ "_len") (cellStrLen (r ip))

/-- Row image of `tmp_dataframe[ip] = tmp_dataframe[ip2]`. -/
def owRow (ip : String) (r : String → Cell) : String → Cell :=
  updateRow r ip (r (ip ++ "2"))

/-- The zero-length test of the pass on a row (once the length column is set). -/
def eqRowB (ip : String) (r : String → Cell) : Bool :=
  cellEqMask (r (ip ++ "_len")) (Cell.num 0)

/-- The complement test (`!= 0`) of the pass on a row. -/
def neRowB (ip : String) (r : String → Cell) : Bool :=
  cellNeMask (r (ip ++ "_len")) (Cell.num 0)

/-- The effect of one merge pass on a single row. -/
def rowPass (ip : String) (r : String → Cell) : String → Cell :=
  let r1 := setLenRow ip r
  if eqRowB ip r1 then owRow ip r1 else r1

/-- The effect of both merge passes on a single row (`src_ip` pass first). -/
def mergeRow (r : String → Cell) : String → Cell :=
  rowPass "dest_ip" (rowPass "src_ip" r)

/-- Row image of the backslash cleaning of the raw column. -/
def cleanRow (rawCol : String) (r : String → Cell) : String → Cell :=
  updateRow r rawCol (cellClean (r rawCol))

/-- The effect of cleaning, extraction and null-filling on a single row. -/
def preRow (p : Pattern) (rawCol : String) (r : String → Cell) : String → Cell :=
  fillnaRow (extractRow p rawCol (cleanRow rawCol r))

/-- The effect of the whole `parse` on a single row. -/
def parseRow (p : Pattern) (rawCol : String) (r : String → Cell) : String → Cell :=
  mergeRow (preRow p rawCol r)

/-- Column `c` of `df` holds string data in every row. -/
@[reducible]
def StrCol (df : DataFrame) (c : String) : Prop :=
  ∀ r ∈ df.rows, (r c).isStr = true

/-- A test row with a raw text and an id, null elsewhere. -/
def mkRow (raw : String) (idv : String) : String → Cell :=
  fun c => if c = "raw" then Cell.str raw else if c = "id" then Cell.str idv else Cell.null

/-- Two-row test dataset: row A has an empty `src_ip` capture, row B a
non-empty one, so the first merge pass reorders them. -/
def c9df : DataFrame :=
  { cols := ["id", "raw"],
    rows := [mkRow "src_ip= src_ip2=9.9.9.9 dest_ip=2.2.2.2 dest_ip2=" "A",
             mkRow "src_ip=1.2.3.4 src_ip2= dest_ip=5.6.7.8 dest_ip2=" "B"] }

/-- One-row test dataset holding the spec's concrete backslash scenario. -/
def c4df : DataFrame :=
  { cols := ["raw"],
    rows := [mkRow "src_ip=\\\\10.0.0.1 dest_ip= dest_ip2=10.0.0.2" "x"] }

/-- A test row holding the four ip fields directly, null elsewhere. -/
def mkIpRow (s s2 d d2 : String) : String → Cell := fun c =>
  if c = "src_ip" then Cell.str s
  else if c = "src_ip2" then Cell.str s2
  else if c = "dest_ip" then Cell.str d
  else if c = "dest_ip2" then Cell.str d2
  else Cell.null

/-- Test dataset whose only row has a non-empty primary in both pairs. -/
def c6df : DataFrame :=
  { cols := ["src_ip", "src_ip2", "dest_ip", "dest_ip2"],
    rows := [mkIpRow "1.1.1.1" "" "2.2.2.2" ""] }

/-- Test dataset whose only row has an empty `src_ip`. -/
def c6edf : DataFrame :=
  { cols := ["src_ip", "src_ip2", "dest_ip", "dest_ip2"],
    rows := [mkIpRow "" "9.9.9.9" "3.3.3.3" ""] }

/-- Test dataset with one empty-`src_ip` row and one non-empty one. -/
def c9mixed : DataFrame :=
  { cols := ["src_ip", "src_ip2", "dest_ip", "dest_ip2"],
    rows := [mkIpRow "" "7.7.7.7" "1.1.1.1" "", mkIpRow "8.8.8.8" "" "2.2.2.2" ""] }

/-- Five-row test dataset, two of whose rows (no `=` in the text) do not
match the test pattern at all. -/
def c7df : DataFrame :=
  { cols := ["raw"],
    rows := [mkRow "src_ip=1.1.1.1 src_ip2= dest_ip=2.2.2.2 dest_ip2=" "1",
             mkRow "no match here" "2",
             mkRow "src_ip= src_ip2=3.3.3.3 dest_ip=4.4.4.4 dest_ip2=" "3",
             mkRow "garbage" "4",
             mkRow "src_ip=5.5.5.5 src_ip2= dest_ip= dest_ip2=6.6.6.6" "5"] }

/-- A dataset with no columns and no rows. -/
def emptyDf : DataFrame := { cols := [], rows := [] }

theorem updateRow_same (r : String → Cell) (c : String) (v : Cell) :
    updateRow r c v c = v := by
  simp [updateRow]

theorem updateRow_other (r : String → Cell) (c : String) (v : Cell) (c' : String)
    (h : c' ≠ c) : updateRow r c v c' = r c' := by
  simp [updateRow, h]

theorem self_ne_append (s t : String) (h : t ≠ "") : s ≠ s ++ t := by
  intro he
  have hl := congrArg String.length he
  rw [String.length_append] at hl
  have h0 : t.length = 0 := by omega
  exact h (String.ext (List.length_eq_zero.mp h0))

theorem append_ne_append (s t u : String) (h : t ≠ u) : s ++ t ≠ s ++ u := by
  intro he
  apply h
  have : (s ++ t).data = (s ++ u).data := congrArg String.data he
  simp only [String.data_append] at this
  exact String.ext (List.append_cancel_left this)

/-- The rows of one merge pass, with the emptiness branching collapsed: the
non-empty-primary rows followed by the overwritten zero-length rows. -/
theorem process_ip_pass_rows (df : DataFrame) (ip : String) :
    (process_ip_pass df ip).rows =
      (nonzeroDf df ip).rows ++ ((zeroDf df ip).rows.map (owRow ip)) := by
  unfold process_ip_pass
  by_cases h1 : (zeroDf df ip).rows.isEmpty
  · have hz : (zeroDf df ip).rows = [] := List.isEmpty_iff.mp h1
    simp [DataFrame.drop, h1, hz]
  · by_cases h2 : (nonzeroDf df ip).rows.isEmpty
    · have hn : (nonzeroDf df ip).rows = [] := List.isEmpty_iff.mp h2
      simp [DataFrame.drop, h1, h2, hn, DataFrame.setColBy, owRow]
    · simp [DataFrame.drop, h1, h2, DataFrame.concat, DataFrame.setColBy, owRow]

/-- Filtering a list into a group and its complement, transforming the
selected group, and concatenating is a permutation of transforming the
selected elements in place. -/
theorem filter_ow_perm {α : Type} (eqb : α → Bool) (ow : α → α) (l : List α) :
    (l.filter (fun x => !eqb x) ++ (l.filter eqb).map ow).Perm
      (l.map (fun x => if eqb x then ow x else x)) := by
  induction l with
  | nil => simp
  | cons x l ih =>
    by_cases h : eqb x = true
    · simp only [List.filter_cons, h, Bool.not_true, if_neg Bool.false_ne_true,
        if_pos, List.map_cons]
      exact List.perm_middle.trans (ih.cons (ow x))
    · have h' : eqb x = false := Bool.eq_false_iff.mpr h
      simp only [List.filter_cons, h', Bool.not_false, if_pos, if_neg,
        Bool.false_ne_true, not_false_iff, List.map_cons, List.cons_append]
      exact ih.cons x

theorem str_length_ne_zero (s : String) (h : s ≠ "") : s.length ≠ 0 :=
  fun h0 => h (String.ext (List.length_eq_zero.mp h0))

theorem zeroDf_rows (df : DataFrame) (ip : String) :
    (zeroDf df ip).rows = (df.rows.map (setLenRow ip)).filter (eqRowB ip) := rfl

theorem nonzeroDf_rows (df : DataFrame) (ip : String) :
    (nonzeroDf df ip).rows = (df.rows.map (setLenRow ip)).filter (neRowB ip) := rfl

theorem cellNeMask_eq_not (a b : Cell) (ha : a ≠ Cell.null) (hb : b ≠ Cell.null) :
    cellNeMask a b = !cellEqMask a b := by
  cases a <;> cases b <;> simp_all [cellNeMask, cellEqMask]

theorem neRowB_eq_not (ip : String) (r : String → Cell) (h : (r ip).isStr = true) :
    neRowB ip (setLenRow ip r) = !eqRowB ip (setLenRow ip r) := by
  cases hip : r ip with
  | str s =>
    simp only [neRowB, eqRowB, setLenRow, updateRow_same, hip, cellStrLen]
    exact cellNeMask_eq_not _ _ (by simp) (by simp)
  | null => simp [Cell.isStr, hip] at h
  | num n => simp [Cell.isStr, hip] at h

/-- Under string data in the primary column, one pass of the merge is a
permutation of applying the row-level pass to every row. -/
theorem process_ip_pass_perm (df : DataFrame) (ip : String) (h : StrCol df ip) :
    (process_ip_pass df ip).rows.Perm (df.rows.map (rowPass ip)) := by
  rw [process_ip_pass_rows, nonzeroDf_rows, zeroDf_rows]
  have hc : (df.rows.map (setLenRow ip)).filter (neRowB ip)
      = (df.rows.map (setLenRow ip)).filter (fun x => !eqRowB ip x) := by
    apply List.filter_congr
    intro x hx
    rcases List.mem_map.mp hx with ⟨r, hr, rfl⟩
    exact neRowB_eq_not ip r (h r hr)
  rw [hc]
  have hp := filter_ow_perm (eqRowB ip) (owRow ip) (df.rows.map (setLenRow ip))
  rw [List.map_map] at hp
  exact hp

theorem rowPass_other (ip : String) (r : String → Cell) (c : String)
    (h1 : c ≠ ip) (h2 : c ≠ ip ++ "_len") : rowPass ip r c = r c := by
  unfold rowPass
  by_cases he : eqRowB ip (setLenRow ip r) = true
  · simp only [he, if_pos]
    rw [owRow, updateRow_other _ _ _ _ h1, setLenRow, updateRow_other _ _ _ _ h2]
  · simp only [he, if_neg, Bool.false_eq_true, not_false_iff]
    rw [setLenRow, updateRow_other _ _ _ _ h2]

theorem ip_ne_len (ip : String) : ip ≠ ip ++ "_len" :=
  self_ne_append ip "_len" (by decide)

theorem ip2_ne_len (ip : String) : ip ++ "2" ≠ ip ++ "_len" :=
  append_ne_append ip "2" "_len" (by decide)

theorem rowPass_ip_empty (ip : String) (r : String → Cell)
    (h : r ip = Cell.str "") : rowPass ip r ip = r (ip ++ "2") := by
  unfold rowPass
  have he : eqRowB ip (setLenRow ip r) = true := by
    simp [eqRowB, setLenRow, updateRow_same, h, cellStrLen, cellEqMask]
  simp only [he, if_pos]
  rw [owRow, updateRow_same, setLenRow, updateRow_other _ _ _ _ (ip2_ne_len ip)]

theorem rowPass_ip_nonempty (ip : String) (r : String → Cell) (s : String)
    (h : r ip = Cell.str s) (hs : s ≠ "") : rowPass ip r ip = r ip := by
  unfold rowPass
  have he : eqRowB ip (setLenRow ip r) = false := by
    simp [eqRowB, setLenRow, updateRow_same, h, cellStrLen, cellEqMask,
      str_length_ne_zero s hs]
  simp only [he, Bool.false_eq_true, if_neg, not_false_iff]
  rw [setLenRow, updateRow_other _ _ _ _ (ip_ne_len ip)]

theorem preDf_rows (p : Pattern) (df : DataFrame) (rawCol : String) :
    (preDf p df rawCol).rows = df.rows.map (preRow p rawCol) := by
  show ((df.rows.map (cleanRow rawCol)).map (extractRow p rawCol)).map fillnaRow = _
  rw [List.map_map, List.map_map]
  rfl

theorem preRow_group_isStr (p : Pattern) (rawCol : String) (r : String → Cell)
    (c : String) (hc : c ∈ p.groups) : (preRow p rawCol r c).isStr = true := by
  show (fillnaCell (extractRow p rawCol (cleanRow rawCol r) c)).isStr = true
  unfold extractRow
  rw [if_pos hc]
  cases h1 : cleanRow rawCol r rawCol with
  | null => simp [fillnaCell, Cell.isStr]
  | num n => simp [fillnaCell, Cell.isStr]
  | str s =>
    cases h2 : p.run s with
    | none => simp [h2, fillnaCell, Cell.isStr]
    | some caps => cases h3 : caps c <;> simp [h2, h3, fillnaCell, Cell.isStr]

theorem StrCol_preDf (p : Pattern) (df : DataFrame) (rawCol : String) (c : String)
    (hc : c ∈ p.groups) : StrCol (preDf p df rawCol) c := by
  intro r hr
  rw [preDf_rows] at hr
  rcases List.mem_map.mp hr with ⟨r0, _, rfl⟩
  exact preRow_group_isStr p rawCol r0 c hc

/-- The rows of `_process_ip_fields` are a permutation of the row-level
double pass applied to every row, under string data in the two primaries. -/
theorem process_ip_fields_perm (df : DataFrame)
    (hs : StrCol df "src_ip") (hd : StrCol df "dest_ip") :
    (process_ip_fields df).rows.Perm (df.rows.map mergeRow) := by
  have p1 := process_ip_pass_perm df "src_ip" hs
  have h2 : StrCol (process_ip_pass df "src_ip") "dest_ip" := by
    intro r hr
    have hr' := p1.mem_iff.mp hr
    rcases List.mem_map.mp hr' with ⟨r0, hr0, rfl⟩
    rw [rowPass_other "src_ip" r0 "dest_ip" (by decide) (by decide)]
    exact hd r0 hr0
  have p2 := process_ip_pass_perm (process_ip_pass df "src_ip") "dest_ip" h2
  refine p2.trans ?_
  have hm := p1.map (rowPass "dest_ip")
  rw [List.map_map] at hm
  exact hm

/-- The output rows of `parse` are a permutation of the row-level pipeline
applied to every input row. -/
theorem parse_rows_perm (p : Pattern) (df : DataFrame) (rawCol : String)
    (hs : "src_ip" ∈ p.groups) (hd : "dest_ip" ∈ p.groups) :
    (parse p df rawCol).rows.Perm (df.rows.map (parseRow p rawCol)) := by
  have hmid := process_ip_fields_perm (preDf p df rawCol)
    (StrCol_preDf p df rawCol _ hs) (StrCol_preDf p df rawCol _ hd)
  rw [preDf_rows, List.map_map] at hmid
  exact hmid

theorem setColBy_cols_mem (df : DataFrame) (c0 : String) (f : (String → Cell) → Cell)
    (c : String) : c ∈ (df.setColBy c0 f).cols ↔ (c ∈ df.cols ∨ c = c0) := by
  unfold DataFrame.setColBy
  by_cases h : c0 ∈ df.cols
  · simp only [h, if_pos]
    constructor
    · exact Or.inl
    · rintro (hc | rfl)
      · exact hc
      · exact h
  · simp [h, List.mem_append]

theorem clean_raw_cols_mem (df : DataFrame) (rawCol : String) (c : String) :
    c ∈ (clean_raw df rawCol).cols ↔ (c ∈ df.cols ∨ c = rawCol) :=
  setColBy_cols_mem df rawCol _ c

theorem preDf_cols_mem (p : Pattern) (df : DataFrame) (rawCol : String) (c : String) :
    c ∈ (preDf p df rawCol).cols ↔ (c ∈ df.cols ∨ c = rawCol ∨ c ∈ p.groups) := by
  have hbase := clean_raw_cols_mem df rawCol c
  show c ∈ (clean_raw df rawCol).cols ++ _ ↔ _
  simp only [List.mem_append, List.mem_filter, Bool.not_eq_true', decide_eq_false_iff_not]
  constructor
  · rintro (hc | ⟨hg, _⟩)
    · rcases hbase.mp hc with h' | h'
      · exact Or.inl h'
      · exact Or.inr (Or.inl h')
    · exact Or.inr (Or.inr hg)
  · rintro (h' | h' | h')
    · exact Or.inl (hbase.mpr (Or.inl h'))
    · exact Or.inl (hbase.mpr (Or.inr h'))
    · by_cases hc : c ∈ (clean_raw df rawCol).cols
      · exact Or.inl hc
      · exact Or.inr ⟨h', by simpa using hc⟩

theorem process_ip_pass_cols (df : DataFrame) (ip : String) (h : ip ∈ df.cols) :
    (process_ip_pass df ip).cols =
      (lenDf df ip).cols.filter (fun c => !decide (c ∈ [ip ++ "_len", ip ++ "2"])) := by
  have hip : ip ∈ (zeroDf df ip).cols := by
    show ip ∈ (df.setColBy (ip ++ "_len") (fun r => cellStrLen (r ip))).cols
    exact (setColBy_cols_mem df (ip ++ "_len") (fun r => cellStrLen (r ip)) ip).mpr
      (Or.inl h)
  have hset : ((zeroDf df ip).setColBy ip (fun r => r (ip ++ "2"))).cols
      = (lenDf df ip).cols := by
    unfold DataFrame.setColBy
    rw [if_pos hip]
    rfl
  simp only [process_ip_pass]
  by_cases h1 : (zeroDf df ip).rows.isEmpty = true
  · rw [if_pos h1]
    rfl
  · rw [if_neg h1]
    by_cases h2 : (nonzeroDf df ip).rows.isEmpty = true
    · rw [if_pos h2]
      show ((zeroDf df ip).setColBy ip (fun r => r (ip ++ "2"))).cols.filter _ = _
      rw [hset]
    · rw [if_neg h2]
      rfl

theorem process_ip_pass_cols_mem (df : DataFrame) (ip : String) (c : String)
    (h : ip ∈ df.cols) :
    c ∈ (process_ip_pass df ip).cols ↔
      (c ∈ df.cols ∧ c ≠ ip ++ "_len" ∧ c ≠ ip ++ "2") := by
  rw [process_ip_pass_cols df ip h]
  have hlen := setColBy_cols_mem df (ip ++ "_len")
    (fun r => cellStrLen (r ip)) c
  simp only [List.mem_filter, Bool.not_eq_true', decide_eq_false_iff_not,
    List.mem_cons, List.not_mem_nil, or_false, not_or]
  unfold lenDf
  rw [hlen]
  tauto

theorem parse_cols_mem (p : Pattern) (df : DataFrame) (rawCol : String) (c : String)
    (hs : "src_ip" ∈ p.groups) (hd : "dest_ip" ∈ p.groups) :
    c ∈ (parse p df rawCol).cols ↔
      ((c ∈ df.cols ∨ c = rawCol ∨ c ∈ p.groups) ∧
       c ≠ "src_ip_len" ∧ c ≠ "src_ip2" ∧ c ≠ "dest_ip_len" ∧ c ≠ "dest_ip2") := by
  have hsc : "src_ip" ∈ (preDf p df rawCol).cols :=
    (preDf_cols_mem p df rawCol _).mpr (Or.inr (Or.inr hs))
  have hdc : "dest_ip" ∈ (process_ip_pass (preDf p df rawCol) "src_ip").cols :=
    (process_ip_pass_cols_mem _ _ _ hsc).mpr
      ⟨(preDf_cols_mem p df rawCol _).mpr (Or.inr (Or.inr hd)), by decide, by decide⟩
  have e1 : ("src_ip" : String) ++ "_len" = "src_ip_len" := rfl
  have e2 : ("src_ip" : String) ++ "2" = "src_ip2" := rfl
  have e3 : ("dest_ip" : String) ++ "_len" = "dest_ip_len" := rfl
  have e4 : ("dest_ip" : String) ++ "2" = "dest_ip2" := rfl
  show c ∈ (process_ip_pass (process_ip_pass (preDf p df rawCol) "src_ip")
    "dest_ip").cols ↔ _
  rw [process_ip_pass_cols_mem _ _ c hdc, process_ip_pass_cols_mem _ _ c hsc,
    preDf_cols_mem, e1, e2, e3, e4]
  tauto

theorem mergeRow_src (r : String → Cell) :
    mergeRow r "src_ip" = rowPass "src_ip" r "src_ip" := by
  unfold mergeRow
  exact rowPass_other "dest_ip" _ "src_ip" (by decide) (by decide)

theorem mergeRow_src_empty (r : String → Cell) (h : r "src_ip" = Cell.str "") :
    mergeRow r "src_ip" = r "src_ip2" := by
  rw [mergeRow_src, rowPass_ip_empty "src_ip" r h]
  exact rfl

theorem mergeRow_src_nonempty (r : String → Cell) (s : String)
    (h : r "src_ip" = Cell.str s) (hs : s ≠ "") :
    mergeRow r "src_ip" = r "src_ip" := by
  rw [mergeRow_src, rowPass_ip_nonempty "src_ip" r s h hs]

theorem rowPass_src_dest (r : String → Cell) :
    (rowPass "src_ip" r) "dest_ip" = r "dest_ip" :=
  rowPass_other "src_ip" r "dest_ip" (by decide) (by decide)

theorem mergeRow_dest_empty (r : String → Cell) (h : r "dest_ip" = Cell.str "") :
    mergeRow r "dest_ip" = r "dest_ip2" := by
  unfold mergeRow
  rw [rowPass_ip_empty "dest_ip" _ (by rw [rowPass_src_dest]; exact h)]
  exact rowPass_other "src_ip" r "dest_ip2" (by decide) (by decide)

theorem mergeRow_dest_nonempty (r : String → Cell) (s : String)
    (h : r "dest_ip" = Cell.str s) (hs : s ≠ "") :
    mergeRow r "dest_ip" = r "dest_ip" := by
  unfold mergeRow
  rw [rowPass_ip_nonempty "dest_ip" _ s (by rw [rowPass_src_dest]; exact h) hs]
  exact rowPass_src_dest r

/-- C1: for every input dataset, `parse` returns a dataset with exactly the
input's row count; moreover each fallback-merge pass on its own preserves
the row count of the dataset it is given (it partitions the rows into the
zero-length-primary group and its complement and recombines them). -/
theorem C1_parse_row_count (p : Pattern) (df : DataFrame) (rawCol : String)
    (hs : "src_ip" ∈ p.groups) (hd : "dest_ip" ∈ p.groups) :
    (parse p df rawCol).rows.length = df.rows.length ∧
    ∀ df2 ip, StrCol df2 ip →
      (process_ip_pass df2 ip).rows.length = df2.rows.length := by
  constructor
  · have h := (parse_rows_perm p df rawCol hs hd).length_eq
    rwa [List.length_map] at h
  · intro df2 ip hstr
    have h := (process_ip_pass_perm df2 ip hstr).length_eq
    rwa [List.length_map] at h

/-- C1 witness: the row count is preserved on a concrete pattern/dataset. -/
theorem C1_parse_row_count_witness :
    (parse kvPattern c9df "raw").rows.length = c9df.rows.length :=
  (C1_parse_row_count kvPattern c9df "raw" (by decide) (by decide)).1

/-- C2: for every row of the parsed (cleaned, extracted, null-filled)
dataset and each field pair: if the primary is the empty string the merged
row's primary equals the pre-merge alternate verbatim (empty stays empty
when the alternate is empty too), and a non-empty primary is unchanged; the
merged dataset's rows are exactly the per-row merge of the parsed rows (up
to the pass's reordering). -/
theorem C2_fallback_merge (df : DataFrame)
    (hs : StrCol df "src_ip") (hd : StrCol df "dest_ip") :
    (process_ip_fields df).rows.Perm (df.rows.map mergeRow) ∧
    ∀ r ∈ df.rows,
      (r "src_ip" = Cell.str "" → mergeRow r "src_ip" = r "src_ip2") ∧
      (r "src_ip" ≠ Cell.str "" → mergeRow r "src_ip" = r "src_ip") ∧
      (r "dest_ip" = Cell.str "" → mergeRow r "dest_ip" = r "dest_ip2") ∧
      (r "dest_ip" ≠ Cell.str "" → mergeRow r "dest_ip" = r "dest_ip") := by
  refine ⟨process_ip_fields_perm df hs hd, ?_⟩
  intro r hr
  refine ⟨mergeRow_src_empty r, ?_, mergeRow_dest_empty r, ?_⟩
  · intro hne
    cases h : r "src_ip" with
    | str s =>
      rw [mergeRow_src_nonempty r s h (by rintro rfl; exact hne h)]
      exact h
    | null =>
      have hcon := hs r hr
      rw [h] at hcon
      simp [Cell.isStr] at hcon
    | num n =>
      have hcon := hs r hr
      rw [h] at hcon
      simp [Cell.isStr] at hcon
  · intro hne
    cases h : r "dest_ip" with
    | str s =>
      rw [mergeRow_dest_nonempty r s h (by rintro rfl; exact hne h)]
      exact h
    | null =>
      have hcon := hd r hr
      rw [h] at hcon
      simp [Cell.isStr] at hcon
    | num n =>
      have hcon := hd r hr
      rw [h] at hcon
      simp [Cell.isStr] at hcon

/-- C2 witness: the merge behaviour at a concrete dataset. -/
theorem C2_fallback_merge_witness :
    (process_ip_fields c9mixed).rows.Perm (c9mixed.rows.map mergeRow) :=
  (C2_fallback_merge c9mixed (by decide) (by decide)).1

theorem mergeRow_other (r : String → Cell) (c : String)
    (h1 : c ≠ "src_ip") (h2 : c ≠ "src_ip_len")
    (h3 : c ≠ "dest_ip") (h4 : c ≠ "dest_ip_len") :
    mergeRow r c = r c := by
  unfold mergeRow
  rw [rowPass_other "dest_ip" _ c h3 (fun he => h4 (he.trans rfl)),
    rowPass_other "src_ip" r c h1 (fun he => h2 (he.trans rfl))]

theorem preRow_isStr (p : Pattern) (rawCol : String) (r : String → Cell) (c : String)
    (hc : c ∈ p.groups ∨ c = rawCol ∨ r c = Cell.null ∨ (r c).isStr = true) :
    (preRow p rawCol r c).isStr = true := by
  by_cases hg : c ∈ p.groups
  · exact preRow_group_isStr p rawCol r c hg
  · show (fillnaCell (extractRow p rawCol (cleanRow rawCol r) c)).isStr = true
    unfold extractRow
    rw [if_neg hg]
    by_cases hraw : c = rawCol
    · subst hraw
      rw [cleanRow, updateRow_same]
      cases r c <;> simp [cellClean, fillnaCell, Cell.isStr]
    · rw [cleanRow, updateRow_other _ _ _ _ hraw]
      rcases hc with hc | hc | hc | hc
      · exact absurd hc hg
      · exact absurd hc hraw
      · rw [hc]
        simp [fillnaCell, Cell.isStr]
      · cases hcell : r c with
        | str s => simp [fillnaCell, Cell.isStr]
        | null =>
          rw [hcell] at hc
          simp [Cell.isStr] at hc
        | num n =>
          rw [hcell] at hc
          simp [Cell.isStr] at hc

theorem mergeRow_isStr (q : String → Cell) (c : String)
    (hs : (q "src_ip").isStr = true) (hd : (q "dest_ip").isStr = true)
    (hs2 : (q "src_ip2").isStr = true) (hd2 : (q "dest_ip2").isStr = true)
    (hq : (q c).isStr = true)
    (hc1 : c ≠ "src_ip_len") (hc2 : c ≠ "dest_ip_len") :
    (mergeRow q c).isStr = true := by
  by_cases e1 : c = "src_ip"
  · subst e1
    cases hcell : q "src_ip" with
    | str s =>
      by_cases hemp : s = ""
      · subst hemp
        rw [mergeRow_src_empty q hcell]
        exact hs2
      · rw [mergeRow_src_nonempty q s hcell hemp]
        exact hs
    | null =>
      rw [hcell] at hs
      simp [Cell.isStr] at hs
    | num n =>
      rw [hcell] at hs
      simp [Cell.isStr] at hs
  · by_cases e2 : c = "dest_ip"
    · subst e2
      cases hcell : q "dest_ip" with
      | str s =>
        by_cases hemp : s = ""
        · subst hemp
          rw [mergeRow_dest_empty q hcell]
          exact hd2
        · rw [mergeRow_dest_nonempty q s hcell hemp]
          exact hd
      | null =>
        rw [hcell] at hd
        simp [Cell.isStr] at hd
      | num n =>
        rw [hcell] at hd
        simp [Cell.isStr] at hd
    · rw [mergeRow_other q c e1 hc1 e2 hc2]
      exact hq

/-- C3: every value of every column of the dataset returned by `parse` is
string data — never the null marker: `fillna("")` is a blanket
normalization over every output column, not field-specific, and neither
merge pass reintroduces nulls.  (The input columns carry string-or-null
data, per the input contract of a text dataset.) -/
theorem C3_all_strings (p : Pattern) (df : DataFrame) (rawCol : String)
    (h1 : "src_ip" ∈ p.groups) (h2 : "src_ip2" ∈ p.groups)
    (h3 : "dest_ip" ∈ p.groups) (h4 : "dest_ip2" ∈ p.groups)
    (hin : ∀ r ∈ df.rows, ∀ c ∈ df.cols, r c = Cell.null ∨ (r c).isStr = true) :
    ∀ c ∈ (parse p df rawCol).cols, ∀ r ∈ (parse p df rawCol).rows,
      (r c).isStr = true := by
  intro c hc r hr
  have hcols := (parse_cols_mem p df rawCol c h1 h3).mp hc
  have hperm := parse_rows_perm p df rawCol h1 h3
  have hr' := hperm.mem_iff.mp hr
  rcases List.mem_map.mp hr' with ⟨r0, hr0, rfl⟩
  show (mergeRow (preRow p rawCol r0) c).isStr = true
  apply mergeRow_isStr
  · exact preRow_group_isStr p rawCol r0 _ h1
  · exact preRow_group_isStr p rawCol r0 _ h3
  · exact preRow_group_isStr p rawCol r0 _ h2
  · exact preRow_group_isStr p rawCol r0 _ h4
  · apply preRow_isStr
    rcases hcols.1 with hcd | hcr | hcg
    · exact Or.inr (Or.inr (hin r0 hr0 c hcd))
    · exact Or.inr (Or.inl hcr)
    · exact Or.inl hcg
  · exact hcols.2.1
  · exact hcols.2.2.2.1

/-- C3 witness: on a concrete dataset, every `src_ip` value of the output
is string data. -/
theorem C3_all_strings_witness :
    ((parse kvPattern c9df "raw").getCol "src_ip").all Cell.isStr = true := by
  have h := C3_all_strings kvPattern c9df "raw" (by decide) (by decide) (by decide)
    (by decide) (by decide)
  apply List.all_eq_true.mpr
  intro x hx
  rcases List.mem_map.mp hx with ⟨r, hr, rfl⟩
  exact h "src_ip" (by decide) r hr

/-- C4 counterexample: the text cleaner does not remove only
doubled-backslash artifacts — a single, non-doubled backslash is removed as
well (the two-character regex `\\` matches one literal backslash), so a
text with no doubled backslash sequence is still altered. -/
theorem C4_counterexample :
    cleanText "a\\b" ≠ "a\\b" ∧ cleanText "a\\b" = "ab" :=
  ⟨by decide, by decide⟩

/-- C4 amended: the cleaner removes every backslash character from the raw
text (doubled sequences collapse to nothing, and single backslashes are
removed too, leaving all other characters untouched); on the spec's
concrete row the end-to-end parse yields `src_ip="10.0.0.1"` and
`dest_ip="10.0.0.2"`. -/
theorem C4_amended :
    cleanText "src_ip=\\\\10.0.0.1 dest_ip= dest_ip2=10.0.0.2"
      = "src_ip=10.0.0.1 dest_ip= dest_ip2=10.0.0.2" ∧
    (∀ s : String, ∀ ch ∈ (cleanText s).data, ch ≠ '\\') ∧
    (∀ s : String, (∀ ch ∈ s.data, ch ≠ '\\') → cleanText s = s) ∧
    (parse kvPattern c4df "raw").getCol "src_ip" = [Cell.str "10.0.0.1"] ∧
    (parse kvPattern c4df "raw").getCol "dest_ip" = [Cell.str "10.0.0.2"] := by
  refine ⟨by decide, ?_, ?_, by decide, by decide⟩
  · intro s ch hch
    have h := (List.mem_filter.mp hch).2
    simpa using h
  · intro s h
    apply String.ext
    show s.data.filter _ = s.data
    rw [List.filter_eq_self]
    intro ch hch
    simpa using h ch hch

/-- C4 amended witness: a backslash-free text passes the cleaner unchanged. -/
theorem C4_amended_witness : cleanText "xy" = "xy" :=
  C4_amended.2.2.1 "xy" (by decide)

theorem setLenRow_other (ip : String) (r : String → Cell) (c : String)
    (h : c ≠ ip ++ "_len") : setLenRow ip r c = r c :=
  updateRow_other r (ip ++ "_len") _ c h

theorem eqRowB_setLen_str (ip : String) (r : String → Cell) (s : String)
    (h : r ip = Cell.str s) :
    (eqRowB ip (setLenRow ip r) = true ↔ s.length = 0) := by
  simp [eqRowB, setLenRow, updateRow_same, h, cellStrLen, cellEqMask]

theorem neRowB_setLen_str (ip : String) (r : String → Cell) (s : String)
    (h : r ip = Cell.str s) :
    (neRowB ip (setLenRow ip r) = true ↔ s.length ≠ 0) := by
  simp [neRowB, setLenRow, updateRow_same, h, cellStrLen, cellNeMask]

/-- When every row has a non-empty primary, the zero-length group is empty
and the pass keeps all rows, in order (only the length column is added;
it is dropped from the column list at the end of the pass). -/
theorem process_ip_pass_allNonempty (df : DataFrame) (ip : String)
    (hne : ∀ r ∈ df.rows, (r ip).isNonEmptyStr = true) :
    (process_ip_pass df ip).rows = df.rows.map (setLenRow ip) := by
  rw [process_ip_pass_rows, nonzeroDf_rows, zeroDf_rows]
  have hstr : ∀ r ∈ df.rows, ∃ s : String, r ip = Cell.str s ∧ s ≠ "" := by
    intro r hr
    have h := hne r hr
    cases hcell : r ip with
    | str s =>
      rw [hcell] at h
      simp [Cell.isNonEmptyStr] at h
      exact ⟨s, rfl, h⟩
    | null =>
      rw [hcell] at h
      simp [Cell.isNonEmptyStr] at h
    | num n =>
      rw [hcell] at h
      simp [Cell.isNonEmptyStr] at h
  have hz : (df.rows.map (setLenRow ip)).filter (eqRowB ip) = [] := by
    rw [List.filter_eq_nil_iff]
    intro x hx
    rcases List.mem_map.mp hx with ⟨r, hr, rfl⟩
    rcases hstr r hr with ⟨s, hcell, hs⟩
    rw [eqRowB_setLen_str ip r s hcell]
    exact str_length_ne_zero s hs
  have hk : (df.rows.map (setLenRow ip)).filter (neRowB ip)
      = df.rows.map (setLenRow ip) := by
    rw [List.filter_eq_self]
    intro x hx
    rcases List.mem_map.mp hx with ⟨r, hr, rfl⟩
    rcases hstr r hr with ⟨s, hcell, hs⟩
    rw [neRowB_setLen_str ip r s hcell]
    exact str_length_ne_zero s hs
  rw [hz, hk]
  simp

/-- Both passes on an all-non-empty dataset keep the rows in order, only
setting the (later dropped) length keys. -/
theorem process_ip_fields_allNonempty (df : DataFrame)
    (hne : ∀ r ∈ df.rows,
      (r "src_ip").isNonEmptyStr = true ∧ (r "dest_ip").isNonEmptyStr = true) :
    (process_ip_fields df).rows
      = df.rows.map (fun r => setLenRow "dest_ip" (setLenRow "src_ip" r)) := by
  have h1 := process_ip_pass_allNonempty df "src_ip" (fun r hr => (hne r hr).1)
  have hne2 : ∀ r ∈ (process_ip_pass df "src_ip").rows,
      (r "dest_ip").isNonEmptyStr = true := by
    intro r hr
    rw [h1] at hr
    rcases List.mem_map.mp hr with ⟨r0, hr0, rfl⟩
    rw [setLenRow_other _ _ _ (by decide)]
    exact (hne r0 hr0).2
  have h2 := process_ip_pass_allNonempty (process_ip_pass df "src_ip") "dest_ip" hne2
  show (process_ip_pass (process_ip_pass df "src_ip") "dest_ip").rows = _
  rw [h2, h1, List.map_map]
  rfl

/-- C5: the dataset returned by `parse` contains none of the columns
`src_ip2`, `dest_ip2`, `src_ip_len`, `dest_ip_len` (each pass drops its
alternate and its transient length helper); every other column — input
columns, the raw column, the pattern's remaining capture columns — is
retained; and even on a dataset whose rows all have non-empty primaries the
merge leaves the primary columns unchanged while still removing the
alternate/helper columns. -/
theorem C5_columns (p : Pattern) (df df2 : DataFrame) (rawCol : String)
    (h1 : "src_ip" ∈ p.groups) (h3 : "dest_ip" ∈ p.groups)
    (hsc : "src_ip" ∈ df2.cols) (hdc : "dest_ip" ∈ df2.cols)
    (hne : ∀ r ∈ df2.rows,
      (r "src_ip").isNonEmptyStr = true ∧ (r "dest_ip").isNonEmptyStr = true) :
    ("src_ip2" ∉ (parse p df rawCol).cols ∧
     "dest_ip2" ∉ (parse p df rawCol).cols ∧
     "src_ip_len" ∉ (parse p df rawCol).cols ∧
     "dest_ip_len" ∉ (parse p df rawCol).cols) ∧
    (∀ c, c ≠ "src_ip2" → c ≠ "dest_ip2" → c ≠ "src_ip_len" → c ≠ "dest_ip_len" →
      (c ∈ (parse p df rawCol).cols ↔ (c ∈ df.cols ∨ c = rawCol ∨ c ∈ p.groups))) ∧
    ((process_ip_fields df2).getCol "src_ip" = df2.getCol "src_ip" ∧
     (process_ip_fields df2).getCol "dest_ip" = df2.getCol "dest_ip" ∧
     "src_ip2" ∉ (process_ip_fields df2).cols ∧
     "dest_ip2" ∉ (process_ip_fields df2).cols ∧
     "src_ip_len" ∉ (process_ip_fields df2).cols ∧
     "dest_ip_len" ∉ (process_ip_fields df2).cols) := by
  have hmem := fun c => parse_cols_mem p df rawCol c h1 h3
  have hdc2 : "dest_ip" ∈ (process_ip_pass df2 "src_ip").cols :=
    (process_ip_pass_cols_mem df2 "src_ip" "dest_ip" hsc).mpr
      ⟨hdc, by decide, by decide⟩
  have hmem2 : ∀ c, c ∈ (process_ip_fields df2).cols ↔
      (c ∈ df2.cols ∧ c ≠ "src_ip_len" ∧ c ≠ "src_ip2" ∧
       c ≠ "dest_ip_len" ∧ c ≠ "dest_ip2") := by
    intro c
    have e1 : ("src_ip" : String) ++ "_len" = "src_ip_len" := rfl
    have e2 : ("src_ip" : String) ++ "2" = "src_ip2" := rfl
    have e3 : ("dest_ip" : String) ++ "_len" = "dest_ip_len" := rfl
    have e4 : ("dest_ip" : String) ++ "2" = "dest_ip2" := rfl
    show c ∈ (process_ip_pass (process_ip_pass df2 "src_ip") "dest_ip").cols ↔ _
    rw [process_ip_pass_cols_mem _ _ c hdc2, process_ip_pass_cols_mem _ _ c hsc,
      e1, e2, e3, e4]
    tauto
  have hrows := process_ip_fields_allNonempty df2 hne
  refine ⟨⟨?_, ?_, ?_, ?_⟩, ?_, ?_, ?_, ?_, ?_, ?_, ?_⟩
  · intro hcon
    exact ((hmem _).mp hcon).2.2.1 rfl
  · intro hcon
    exact ((hmem _).mp hcon).2.2.2.2 rfl
  · intro hcon
    exact ((hmem _).mp hcon).2.1 rfl
  · intro hcon
    exact ((hmem _).mp hcon).2.2.2.1 rfl
  · intro c hn1 hn2 hn3 hn4
    rw [hmem c]
    exact ⟨fun h => h.1, fun h => ⟨h, hn3, hn1, hn4, hn2⟩⟩
  · show ((process_ip_fields df2).rows).map (fun r => r "src_ip") = _
    rw [hrows, List.map_map]
    have hfun : ((fun r : String → Cell => r "src_ip") ∘
        fun r => setLenRow "dest_ip" (setLenRow "src_ip" r))
        = (fun r : String → Cell => r "src_ip") := by
      funext r
      show setLenRow "dest_ip" (setLenRow "src_ip" r) "src_ip" = r "src_ip"
      rw [setLenRow_other _ _ _ (by decide), setLenRow_other _ _ _ (by decide)]
    rw [hfun]
    rfl
  · show ((process_ip_fields df2).rows).map (fun r => r "dest_ip") = _
    rw [hrows, List.map_map]
    have hfun : ((fun r : String → Cell => r "dest_ip") ∘
        fun r => setLenRow "dest_ip" (setLenRow "src_ip" r))
        = (fun r : String → Cell => r "dest_ip") := by
      funext r
      show setLenRow "dest_ip" (setLenRow "src_ip" r) "dest_ip" = r "dest_ip"
      rw [setLenRow_other _ _ _ (by decide), setLenRow_other _ _ _ (by decide)]
    rw [hfun]
    rfl
  · intro hcon
    exact ((hmem2 _).mp hcon).2.2.1 rfl
  · intro hcon
    exact ((hmem2 _).mp hcon).2.2.2.2 rfl
  · intro hcon
    exact ((hmem2 _).mp hcon).2.1 rfl
  · intro hcon
    exact ((hmem2 _).mp hcon).2.2.2.1 rfl

/-- C5 witness: concrete instances of the dropped-column and
unchanged-primary facts. -/
theorem C5_columns_witness :
    "src_ip2" ∉ (parse kvPattern c9df "raw").cols ∧
    (process_ip_fields c6df).getCol "src_ip" = c6df.getCol "src_ip" :=
  ⟨(C5_columns kvPattern c9df c6df "raw" (by decide) (by decide) (by decide)
      (by decide) (by decide)).1.1,
   (C5_columns kvPattern c9df c6df "raw" (by decide) (by decide) (by decide)
      (by decide) (by decide)).2.2.1⟩

/-- C6: in one merge pass, if the zero-length group is empty the
overwrite-and-concat is skipped and the non-empty group is kept as-is (the
alternate and helper columns still dropped); if the non-empty group is
empty and the zero-length group is not, the pass returns exactly the
overwritten zero-length group (with the same columns dropped). -/
theorem C6_edge_cases (df : DataFrame) (ip : String) :
    ((zeroDf df ip).rows.isEmpty = true →
      process_ip_pass df ip = (nonzeroDf df ip).drop [ip ++ "_len", ip ++ "2"]) ∧
    ((nonzeroDf df ip).rows.isEmpty = true → (zeroDf df ip).rows.isEmpty = false →
      process_ip_pass df ip =
        ((zeroDf df ip).setColBy ip (fun r => r (ip ++ "2"))).drop
          [ip ++ "_len", ip ++ "2"]) := by
  constructor
  · intro h1
    simp only [process_ip_pass]
    rw [if_pos h1]
  · intro h2 h1
    simp only [process_ip_pass]
    rw [if_neg (by rw [h1]; exact Bool.false_ne_true), if_pos h2]

/-- C6 witness: both edge cases at concrete datasets. -/
theorem C6_edge_cases_witness :
    process_ip_pass c6df "src_ip"
      = (nonzeroDf c6df "src_ip").drop ["src_ip" ++ "_len", "src_ip" ++ "2"] ∧
    process_ip_pass c6edf "src_ip"
      = ((zeroDf c6edf "src_ip").setColBy "src_ip" (fun r => r ("src_ip" ++ "2"))).drop
          ["src_ip" ++ "_len", "src_ip" ++ "2"] :=
  ⟨(C6_edge_cases c6df "src_ip").1 (by decide),
   (C6_edge_cases c6edf "src_ip").2 (by decide) (by decide)⟩

theorem preRow_nonmatching (p : Pattern) (rawCol : String) (r : String → Cell)
    (t : String) (ht : r rawCol = Cell.str t) (hrun : p.run (cleanText t) = none)
    (g : String) (hg : g ∈ p.groups) :
    preRow p rawCol r g = Cell.str "" := by
  show fillnaCell (extractRow p rawCol (cleanRow rawCol r) g) = Cell.str ""
  unfold extractRow
  rw [if_pos hg]
  have hclean : cleanRow rawCol r rawCol = Cell.str (cleanText t) := by
    rw [cleanRow, updateRow_same, ht]
    rfl
  simp [hclean, hrun, fillnaCell]

/-- C7: a non-matching row is not an error and is never dropped: the output
rows of `parse` are a permutation of the per-row pipeline over all input
rows (so the row count is preserved and no row is lost), a row whose
cleaned text does not match the pattern at all ends with the empty string
in every capture column, and the failure is absorbed silently — the call
still returns a result. -/
theorem C7_nonmatching (p : Pattern) (df : DataFrame) (rawCol : String)
    (h1 : "src_ip" ∈ p.groups) (h2 : "src_ip2" ∈ p.groups)
    (h3 : "dest_ip" ∈ p.groups) (h4 : "dest_ip2" ∈ p.groups)
    (h5 : "src_ip_len" ∉ p.groups) (h6 : "dest_ip_len" ∉ p.groups) :
    (parse p df rawCol).rows.length = df.rows.length ∧
    (parse p df rawCol).rows.Perm (df.rows.map (parseRow p rawCol)) ∧
    (∀ r ∈ df.rows, ∀ t, r rawCol = Cell.str t → p.run (cleanText t) = none →
      ∀ g ∈ p.groups, parseRow p rawCol r g = Cell.str "") ∧
    (rawCol ∈ df.cols → parseE p df rawCol = Except.ok (parse p df rawCol)) := by
  have hperm := parse_rows_perm p df rawCol h1 h3
  refine ⟨?_, hperm, ?_, ?_⟩
  · have h := hperm.length_eq
    rwa [List.length_map] at h
  · intro r hr t ht hrun g hg
    have hq : ∀ g0 ∈ p.groups, preRow p rawCol r g0 = Cell.str "" :=
      fun g0 hg0 => preRow_nonmatching p rawCol r t ht hrun g0 hg0
    show mergeRow (preRow p rawCol r) g = Cell.str ""
    by_cases e1 : g = "src_ip"
    · subst e1
      rw [mergeRow_src_empty _ (hq _ h1)]
      exact hq _ h2
    · by_cases e2 : g = "dest_ip"
      · subst e2
        rw [mergeRow_dest_empty _ (hq _ h3)]
        exact hq _ h4
      · rw [mergeRow_other _ g e1 (fun he => h5 (he ▸ hg)) e2 (fun he => h6 (he ▸ hg))]
        exact hq g hg
  · intro hcol
    unfold parseE
    rw [if_pos hcol]

/-- C7 witness: five concrete rows, two of them non-matching: the output
still has five rows, the non-matching second row ends with an empty
`src_ip` capture, and the call returns a result instead of an error. -/
theorem C7_nonmatching_witness :
    (parse kvPattern c7df "raw").rows.length = 5 ∧
    parseRow kvPattern "raw" (c7df.rows.get ⟨1, by decide⟩) "src_ip" = Cell.str "" ∧
    parseE kvPattern c7df "raw" = Except.ok (parse kvPattern c7df "raw") := by
  have h := C7_nonmatching kvPattern c7df "raw" (by decide) (by decide) (by decide)
    (by decide) (by decide) (by decide)
  refine ⟨by rw [h.1]; rfl, ?_, h.2.2.2 (by decide)⟩
  exact h.2.2.1 (c7df.rows.get ⟨1, by decide⟩) (List.get_mem c7df.rows 1 (by decide))
    "no match here" (by decide) rfl "src_ip" (by decide)

/-- C8: construction fails with a ConfigurationError when the named pattern
resource cannot be located or does not parse as a valid regex; `parse`
fails with the spec's SchemaError (the KeyError on reading the absent text
column) — each error is fatal to the call, producing no partial result, and
a successful call returns the complete parse. -/
theorem C8_errors :
    (loadRegex none = Except.error ParserError.configurationError) ∧
    (loadRegex (some none) = Except.error ParserError.configurationError) ∧
    (∀ pat, loadRegex (some (some pat)) = Except.ok pat) ∧
    (∀ p df rawCol, rawCol ∉ df.cols →
      parseE p df rawCol = Except.error ParserError.schemaError) ∧
    (∀ p df rawCol out, parseE p df rawCol = Except.ok out →
      rawCol ∈ df.cols ∧ out = parse p df rawCol) := by
  refine ⟨rfl, rfl, fun pat => rfl, ?_, ?_⟩
  · intro p df rawCol h
    unfold parseE
    rw [if_neg h]
  · intro p df rawCol out h
    unfold parseE at h
    by_cases hc : rawCol ∈ df.cols
    · rw [if_pos hc] at h
      exact ⟨hc, (Except.ok.inj h).symm⟩
    · rw [if_neg hc] at h
      exact Except.noConfusion h

/-- C8 witness: a dataset without the text column yields the schema error. -/
theorem C8_errors_witness :
    parseE kvPattern emptyDf "raw" = Except.error ParserError.schemaError :=
  C8_errors.2.2.2.1 kvPattern emptyDf "raw" (by decide)

/-- C9: the merge runs exactly once per field pair, in the fixed order
`src_ip` then `dest_ip`; when both groups of a pass are non-empty the
recombined rows are the non-empty-primary rows followed by the overwritten
zero-length rows; consequently a concrete input dataset exists whose
output row order differs from its input row order. -/
theorem C9_order (df : DataFrame) (ip : String)
    (_h1 : (zeroDf df ip).rows.isEmpty = false)
    (_h2 : (nonzeroDf df ip).rows.isEmpty = false) :
    (∀ d, process_ip_fields d
      = process_ip_pass (process_ip_pass d "src_ip") "dest_ip") ∧
    ((process_ip_pass df ip).rows = (nonzeroDf df ip).rows
        ++ ((zeroDf df ip).setColBy ip (fun r => r (ip ++ "2"))).rows) ∧
    ((parse kvPattern c9df "raw").getCol "id" = [Cell.str "B", Cell.str "A"] ∧
     c9df.getCol "id" = [Cell.str "A", Cell.str "B"]) := by
  refine ⟨fun d => rfl, ?_, by decide, by decide⟩
  rw [process_ip_pass_rows]
  rfl

/-- C9 witness: the both-groups-non-empty concat shape at a concrete
dataset. -/
theorem C9_order_witness :
    (process_ip_pass c9mixed "src_ip").rows = (nonzeroDf c9mixed "src_ip").rows
      ++ ((zeroDf c9mixed "src_ip").setColBy "src_ip"
            (fun r => r ("src_ip" ++ "2"))).rows :=
  (C9_order c9mixed "src_ip" (by decide) (by decide)).2.1

/-- C10: `parse` mutates its input: line 25 assigns the cleaned
(backslash-stripped) text back into the caller's dataframe through
`__setitem__`, so after the call the caller's raw column holds the cleaned
text while every other column and the row count are unchanged; the rest of
`parse` then runs on this mutated input. -/
theorem C10_mutation (df : DataFrame) (rawCol : String) (h : rawCol ∈ df.cols) :
    (clean_raw df rawCol).cols = df.cols ∧
    (clean_raw df rawCol).rows.length = df.rows.length ∧
    (clean_raw df rawCol).getCol rawCol = (df.getCol rawCol).map cellClean ∧
    (∀ c, c ≠ rawCol → (clean_raw df rawCol).getCol c = df.getCol c) ∧
    (∀ p, parse p df rawCol
      = process_ip_fields (DataFrame.fillna
          (parse_raw_event p (clean_raw df rawCol) rawCol))) := by
  refine ⟨?_, ?_, ?_, ?_, fun p => rfl⟩
  · show (if rawCol ∈ df.cols then df.cols else _) = df.cols
    rw [if_pos h]
  · show (df.rows.map _).length = _
    rw [List.length_map]
  · show ((df.rows.map (cleanRow rawCol)).map (fun r => r rawCol))
      = ((df.rows.map (fun r => r rawCol)).map cellClean)
    rw [List.map_map, List.map_map]
    have hfun : ((fun r : String → Cell => r rawCol) ∘ cleanRow rawCol)
        = (cellClean ∘ fun r : String → Cell => r rawCol) := by
      funext r
      show cleanRow rawCol r rawCol = cellClean (r rawCol)
      rw [cleanRow, updateRow_same]
    rw [hfun]
  · intro c hc
    show ((df.rows.map (cleanRow rawCol)).map (fun r => r c))
      = df.rows.map (fun r => r c)
    rw [List.map_map]
    have hfun : ((fun r : String → Cell => r c) ∘ cleanRow rawCol)
        = (fun r : String → Cell => r c) := by
      funext r
      show cleanRow rawCol r c = r c
      rw [cleanRow, updateRow_other _ _ _ _ hc]
    rw [hfun]

/-- C10 witness: the caller-visible mutation at a concrete dataset. -/
theorem C10_mutation_witness :
    (clean_raw c9df "raw").cols = c9df.cols ∧
    (clean_raw c9df "raw").getCol "raw" = (c9df.getCol "raw").map cellClean ∧
    (clean_raw c9df "raw").getCol "id" = c9df.getCol "id" :=
  ⟨(C10_mutation c9df "raw" (by decide)).1,
   (C10_mutation c9df "raw" (by decide)).2.2.1,
   (C10_mutation c9df "raw" (by decide)).2.2.2.1 "id" (by decide)⟩

end Clx
